import Mathlib

/-!
# ittyhttpd2: a directory-serving HTTP handler

A shallow embedding of `ittyhttpd2.go` and the properties of its request
handler, directory lister, entry classifier and index template.

Conventions of the embedding

* A Go `string` is an immutable sequence of bytes.  It is written here as a
  list of characters, one character per byte (the character whose code is the
  byte).  The three bytes of the arrow in the symlink row of the template are
  therefore three characters.
* Calls that leave the program (standard output, the file system, the HTTP
  response writer, the template engine and `http.ServeFile`) are recorded, in
  program order, as a list of `Effect`s.
* What the operating system and the libraries answer is a parameter (`Sys`).
  `FileTree` is a small concrete file system from which a `Sys` can be built.
-/

namespace Ittyhttpd2

/-! ## Strings -/

/-- A Go string: a sequence of bytes. -/
abbrev Str := List Char

/-- Go's `strings.HasPrefix(s, prefix)`. -/
def stringsHasPrefix : Str → Str → Bool
  | _, [] => true
  | [], _ :: _ => false
  | c :: s, d :: p => c == d && stringsHasPrefix s p

/-- Go's `strings.Contains(s, substr)`: some position of `s` starts a copy of
`substr`.  The positions are tried from the left, as `strings.Index` does. -/
def stringsContains : Str → Str → Bool
  | [], substr => stringsHasPrefix [] substr
  | c :: s, substr => stringsHasPrefix (c :: s) substr || stringsContains s substr

/-- The source's `checkPathIsClean`:
`return !strings.Contains(path, "../")`. -/
def checkPathIsClean (path : Str) : Bool :=
  !stringsContains path "../".toList

/-! ## Constants and data of the program -/

/-- The source's `type EntryType uint8`. -/
abbrev EntryType := Nat

def ENTRY_TYPE_DIR : EntryType := 0
def ENTRY_TYPE_REGULAR : EntryType := 1
def ENTRY_TYPE_SYMLINK : EntryType := 2
def ENTRY_TYPE_UNKNOWN : EntryType := 3

/-- The source's `IGNORED_REQUEST_PATHS = [...]string{"favicon.ico"}`. -/
def IGNORED_REQUEST_PATHS : List Str := ["favicon.ico".toList]

/-- The source's `FileEntry` struct. -/
structure FileEntry where
  Name : Str
  AbsolutePath : Str
  /-- The source's field `Type` (a reserved word here). -/
  Typ : EntryType
  Size : Str
deriving DecidableEq

/-! ## The Go library types the program reads -/

/-- What the program reads of an `os.FileInfo`: `Name()`, `Size()` (an
`int64`) and `Mode()` (an `os.FileMode`, a `uint32`). -/
structure FileInfo where
  Name : Str
  Size : Int
  Mode : Nat
deriving DecidableEq

/-- Go's `os.ModeDir`, bit 31. -/
def ModeDir : Nat := 2 ^ 31
/-- Go's `os.ModeSymlink`, bit 27. -/
def ModeSymlink : Nat := 2 ^ 27
/-- Go's `os.ModeDevice`, bit 26. -/
def ModeDevice : Nat := 2 ^ 26
/-- Go's `os.ModeNamedPipe`, bit 25. -/
def ModeNamedPipe : Nat := 2 ^ 25
/-- Go's `os.ModeSocket`, bit 24. -/
def ModeSocket : Nat := 2 ^ 24
/-- Go's `os.ModeCharDevice`, bit 21. -/
def ModeCharDevice : Nat := 2 ^ 21
/-- Go's `os.ModeIrregular`, bit 19. -/
def ModeIrregular : Nat := 2 ^ 19

/-- Go's `os.ModeType`, the mask of the file-type bits. -/
def ModeType : Nat :=
  ModeDir ||| ModeSymlink ||| ModeNamedPipe ||| ModeSocket ||| ModeDevice |||
    ModeCharDevice ||| ModeIrregular

/-- The positions of the bits of `ModeType`. -/
def typeBits : List Nat := [31, 27, 26, 25, 24, 21, 19]

/-- Go's `FileMode.IsDir`: `m&ModeDir != 0`. -/
def FileMode.IsDir (m : Nat) : Bool := m &&& ModeDir != 0

/-- Go's `FileMode.IsRegular`: `m&ModeType == 0`. -/
def FileMode.IsRegular (m : Nat) : Bool := m &&& ModeType == 0

/-- The conversion `uint64(x)` of an `int64`. -/
def uint64 (x : Int) : Nat := (x % 2 ^ 64).toNat

/-! ## The world outside the program -/

/-- The answers of the operating system and of the libraries.  An error is
carried as its message. -/
structure Sys where
  /-- Go's `os.Getwd()`. -/
  getwd : Except Str Str
  /-- Go's `os.Stat(name)`. -/
  stat : Str → Except Str FileInfo
  /-- Go's `ioutil.ReadDir(dirname)`. -/
  readDir : Str → Except Str (List FileInfo)
  /-- The library function `humanize.Bytes`. -/
  humanizeBytes : Nat → Str
  /-- The error, if any, that `templates.ExecuteTemplate` returns for a
  base and a list of entries. -/
  executeTemplateErr : Str → List FileEntry → Option Str

/-- A call that leaves the program, with its arguments. -/
inductive Effect where
  /-- Text written to standard output by `fmt.Printf` or `fmt.Println`. -/
  | print (text : Str)
  /-- A call `filepath.Abs(path)`. -/
  | filepathAbs (path : Str)
  /-- A call `os.Stat(name)`. -/
  | osStat (name : Str)
  /-- A call `ioutil.ReadDir(dirname)`. -/
  | readDir (dirname : Str)
  /-- A call `http.Error(w, body, code)`: the status `code` and the body. -/
  | httpError (body : Str) (code : Nat)
  /-- A call `templates.ExecuteTemplate(w, name, {base, entries})`. -/
  | executeTemplate (name : Str) (base : Str) (entries : List FileEntry)
  /-- A call `http.ServeFile(w, r, name)`. -/
  | httpServeFile (name : Str)
deriving DecidableEq

/-! ## `path/filepath` on Unix -/

/-- The loop of `filepath.Clean` that steps `out.w` back while
`out.w > dotdot && !os.IsPathSeparator(out.index(out.w))`, started at `w`; the
result is the final `out.w`. -/
def cleanBacktrack (out : Str) (dotdot : Nat) : Nat → Nat
  | 0 => 0
  | w + 1 =>
    if dotdot < w + 1 ∧ out.getD (w + 1) '/' ≠ '/' then cleanBacktrack out dotdot w
    else w + 1

/-- The main loop of Go's `filepath.Clean`.  `rest` is `path[r:]`, `out` is
the buffer written so far (`out.w` is its length), `dotdot` is the index in
`out` where `..` must stop.  Every turn reads at least one byte, so a fuel of
`rest.length` is enough. -/
def cleanLoop (rooted : Bool) : Nat → Str → Str → Nat → Str
  | 0, _, out, _ => out
  | _ + 1, [], out, _ => out
  | fuel + 1, c :: rest, out, dotdot =>
    if c = '/' then
      -- empty path element
      cleanLoop rooted fuel rest out dotdot
    else if c = '.' ∧ (rest = [] ∨ rest.head? = some '/') then
      -- . element
      cleanLoop rooted fuel rest out dotdot
    else if c = '.' ∧ rest.head? = some '.' ∧
        (rest.drop 1 = [] ∨ (rest.drop 1).head? = some '/') then
      -- .. element: remove to last separator
      if dotdot < out.length then
        cleanLoop rooted fuel (rest.drop 1)
          (out.take (cleanBacktrack out dotdot (out.length - 1))) dotdot
      else if !rooted then
        let out1 := (if 0 < out.length then out ++ ['/'] else out) ++ ['.', '.']
        cleanLoop rooted fuel (rest.drop 1) out1 out1.length
      else
        cleanLoop rooted fuel (rest.drop 1) out dotdot
    else
      -- real path element: add slash if needed, then copy the element
      let out1 :=
        if (rooted ∧ out.length ≠ 1) ∨ (¬ rooted ∧ out.length ≠ 0) then out ++ ['/'] else out
      let elem := (c :: rest).takeWhile (· ≠ '/')
      cleanLoop rooted fuel ((c :: rest).dropWhile (· ≠ '/')) (out1 ++ elem) dotdot

/-- Go's `filepath.Clean` on Unix (no volume name, separator `/`). -/
def filepathClean (path : Str) : Str :=
  if path = [] then ['.']
  else
    let rooted := path.head? = some '/'
    let out :=
      if rooted then cleanLoop true path.length (path.drop 1) ['/'] 1
      else cleanLoop false path.length path [] 0
    if out.length = 0 then ['.'] else out

/-- Go's `filepath.IsAbs` on Unix: `strings.HasPrefix(path, "/")`. -/
def filepathIsAbs (path : Str) : Bool := stringsHasPrefix path "/".toList

/-- Go's `filepath.Join(a, b)` on Unix: the elements from the first non-empty
one on are joined with `/` and cleaned; the result is empty when both are
empty. -/
def filepathJoin (a b : Str) : Str :=
  if a ≠ [] then filepathClean (a ++ "/".toList ++ b)
  else if b ≠ [] then filepathClean b
  else []

/-- Go's `filepath.Abs` on Unix: a rooted path is cleaned, any other path is
joined to the working directory; an error of `os.Getwd` is returned with the
empty string. -/
def filepathAbs (sys : Sys) (path : Str) : Except Str Str :=
  if filepathIsAbs path then .ok (filepathClean path)
  else
    match sys.getwd with
    | .error err => .error err
    | .ok wd => .ok (filepathJoin wd path)

/-! ## The functions of `ittyhttpd2.go` -/

/-- The source's `findAbsolutePath`.  On an error of `filepath.Abs` the
message is printed and the empty string, which `filepath.Abs` returned, is the
result. -/
def findAbsolutePath (sys : Sys) (path : Str) : List Effect × Str :=
  match filepathAbs sys path with
  | .error err =>
    ([.filepathAbs path,
      -- "Could not find absolute path of requested directory: %s\n"
      .print ("Could not find absolute path of requested directory: ".toList ++ err ++
        "\n".toList)], [])
  | .ok absPath => ([.filepathAbs path], absPath)

/-- The source's `getFileEntryType`. -/
def getFileEntryType (info : FileInfo) : EntryType :=
  if FileMode.IsDir info.Mode then ENTRY_TYPE_DIR
  else if FileMode.IsRegular info.Mode then ENTRY_TYPE_REGULAR
  else if info.Mode &&& ModeSymlink ≠ 0 then ENTRY_TYPE_SYMLINK
  else ENTRY_TYPE_UNKNOWN

/-- The source's `buildFileEntry`. -/
def buildFileEntry (sys : Sys) (fileInfo : FileInfo) (absolutePath : Str) : FileEntry :=
  { Name := fileInfo.Name
    AbsolutePath := absolutePath
    Typ := getFileEntryType fileInfo
    Size := sys.humanizeBytes (uint64 fileInfo.Size) }

/-- The source's `getFileInfo`: the absolute path is found, then passed to
`os.Stat`. -/
def getFileInfo (sys : Sys) (path : Str) : List Effect × Except Str FileEntry :=
  let (eff, absolutePath) := findAbsolutePath sys path
  match sys.stat absolutePath with
  | .error err =>
    -- fmt.Errorf("Could not stat \"%s\": %s\n", absolutePath, err)
    (eff ++ [.osStat absolutePath],
      .error ("Could not stat \"".toList ++ absolutePath ++ "\": ".toList ++ err ++ "\n".toList))
  | .ok fileInfo => (eff ++ [.osStat absolutePath], .ok (buildFileEntry sys fileInfo absolutePath))

/-- The source's `shouldIgnoreRequest`, as its loop over a list of ignored
paths. -/
def shouldIgnoreLoop (path : Str) : List Str → Bool
  | [] => false
  | ignoredPath :: rest => if path = ignoredPath then true else shouldIgnoreLoop path rest

/-- The source's `shouldIgnoreRequest`. -/
def shouldIgnoreRequest (path : Str) : Bool :=
  shouldIgnoreLoop path IGNORED_REQUEST_PATHS

/-- One turn of the loop of `findFileEntriesForDir`: the effects so far and
the slice `fileEntries` so far, then one `fileInfo`. -/
def findFileEntriesStep (sys : Sys) (acc : List Effect × List FileEntry)
    (fileInfo : FileInfo) : List Effect × List FileEntry :=
  let (eff, absPath) := findAbsolutePath sys fileInfo.Name
  let fileEntry := buildFileEntry sys fileInfo absPath
  if fileEntry.Typ = ENTRY_TYPE_UNKNOWN then
    (acc.1 ++ eff, acc.2) -- continue
  else
    (acc.1 ++ eff, acc.2 ++ [fileEntry])

/-- The value of `fileInfos` after `ioutil.ReadDir(path)`: `nil` when the
read failed. -/
def readDirInfos (sys : Sys) (path : Str) : List FileInfo :=
  match sys.readDir path with
  | .error _ => []
  | .ok fileInfos => fileInfos

/-- The source's `findFileEntriesForDir`. -/
def findFileEntriesForDir (sys : Sys) (path : Str) : List Effect × List FileEntry :=
  let eff : List Effect :=
    match sys.readDir path with
    | .error err =>
      -- "Could not get directory list for \"%s\": %s\n"
      [.readDir path,
       .print ("Could not get directory list for \"".toList ++ path ++ "\": ".toList ++ err ++
         "\n".toList)]
    | .ok _ => [.readDir path]
  (readDirInfos sys path).foldl (findFileEntriesStep sys) (eff, [])

/-- The source's `showIndex`. -/
def showIndex (sys : Sys) (path : Str) (fileEntry : FileEntry) : List Effect :=
  let base : Str :=
    if path = [] then "/".toList
    else "/".toList ++ path ++ "/".toList -- fmt.Sprintf("/%s/", path)
  let (eff, entries) := findFileEntriesForDir sys fileEntry.AbsolutePath
  eff ++ [.executeTemplate "index.html".toList base entries] ++
    match sys.executeTemplateErr base entries with
    | some err => [.print (err ++ "\n".toList)] -- fmt.Println(err)
    | none => []

/-- The source's `serveFile`. -/
def serveFile (absolutePath : Str) : List Effect :=
  if checkPathIsClean absolutePath then [.httpServeFile absolutePath]
  else [.httpError "Requested path is not allowed".toList 403]

/-- The source's `handleRequest`, given `r.URL.Path`.  The result is `none`
when the slice expression `r.URL.Path[1:]` is out of range (an empty
`r.URL.Path`), and otherwise the effects of the call in program order. -/
def handleRequest (sys : Sys) (urlPath : Str) : Option (List Effect) :=
  match urlPath with
  | [] => none
  | _ :: path =>
    if shouldIgnoreRequest path then some []
    else
      let eff0 : List Effect := [.print ("request \"".toList ++ path ++ "\"\n".toList)]
      match getFileInfo sys path with
      | (eff1, .error _) =>
        some (eff0 ++ eff1 ++ [.httpError "getFileInfo failed for requested path".toList 403])
      | (eff1, .ok fileEntry) =>
        if fileEntry.Typ = ENTRY_TYPE_DIR then
          some (eff0 ++ eff1 ++ showIndex sys path fileEntry)
        else if fileEntry.Typ = ENTRY_TYPE_REGULAR then
          some (eff0 ++ eff1 ++ serveFile fileEntry.AbsolutePath)
        else
          some (eff0 ++ eff1 ++
            [.httpError
              ("Not a directory or regular file, so not accepting requested path \"".toList ++
                path ++ "\"\n".toList) 403])

/-! ## The template `templateIndexHTML`

The template is executed by `html/template`, which writes the text of the
template as it stands, except that it leaves out HTML comments, and passes
every interpolated value through an escaper chosen by the place of the
value.  The escapers are a parameter. -/

/-- The escapers of `html/template` at the places where the template
interpolates a value. -/
structure Escapers where
  /-- A value in the text of an element. -/
  text : Str → Str
  /-- The value `$.Base` at the start of the `href` attribute. -/
  hrefBase : Str → Str
  /-- The value `$entry.Name` that follows it in the `href` attribute. -/
  hrefName : Str → Str

/-- The body of `range $entry := .Entries` in `templateIndexHTML`, for one
entry.  The template compares `$entry.Type` with the literals 0, 1 and 2; a
`Type` is printed as a decimal number. -/
def templateRow (esc : Escapers) (base : Str) (entry : FileEntry) : Str :=
  "\n\t<tr>\n\t\t".toList ++
  (if entry.Typ = 0 then
    "\t\t\t\t\n\t\t\t<td></td>\n\t\t\t<td><a href=\"".toList ++
      esc.hrefBase base ++ esc.hrefName entry.Name ++ "\">".toList ++
      esc.text entry.Name ++ "/</a></td>\n\t\t".toList
  else if entry.Typ = 1 then
    "\t\n\t\t\t<td>".toList ++ esc.text entry.Size ++
      "</td>\n\t\t\t<td><a href=\"".toList ++
      esc.hrefBase base ++ esc.hrefName entry.Name ++ "\">".toList ++
      esc.text entry.Name ++ "</a></td>\n\t\t".toList
  else if entry.Typ = 2 then
    "\t\n\t\t\t<td></td>\n\t\t\t<td><a href=\"".toList ++
      esc.hrefBase base ++ esc.hrefName entry.Name ++ "\">".toList ++
      esc.text entry.Name ++ " \xe2\x86\x92</a></td>\n\t\t".toList
  else
    "\n\t\t\t<td></td>\n\t\t\t<td>".toList ++ esc.text entry.Name ++
      " [unknown type ".toList ++ esc.text (Nat.repr entry.Typ).toList ++
      "]</td>\n\t\t".toList) ++
  "\n\t</tr>\n".toList

/-- The output of the source's template `templateIndexHTML` for a base and a
list of entries. -/
def templateIndexHTML (esc : Escapers) (base : Str) (entries : List FileEntry) : Str :=
  "\n<html>\n<head>\n</head>\n<body>\n\nindex of ".toList ++ esc.text base ++
    "\n\n<table>\n".toList ++
    (entries.map (templateRow esc base)).flatten ++
    "\n</table>\n\n</body>\n</html>\n".toList

/-- Escapers that return the value unchanged.  The escapers of
`html/template` do so on a value made of ASCII letters, digits and `/`. -/
def plainEscapers : Escapers :=
  { text := fun v => v, hrefBase := fun v => v, hrefName := fun v => v }

/-! ## A file system

A file tree maps an absolute, cleaned path to what is stored there.  It is
used to build a `Sys` in which `os.Stat` follows symbolic links and
`ioutil.ReadDir` does not. -/

/-- What is stored at a path. -/
inductive Node where
  | directory
  | regular (size : Int)
  /-- A symbolic link, with the absolute path it points to. -/
  | symlink (target : Str)
  | device
deriving DecidableEq

/-- The `os.FileMode` of a node: its type bits and some permission bits. -/
def Node.mode : Node → Nat
  | .directory => ModeDir ||| 0o755
  | .regular _ => 0o644
  | .symlink _ => ModeSymlink ||| 0o777
  | .device => ModeDevice ||| 0o660

/-- The size reported for a node. -/
def Node.size : Node → Int
  | .directory => 4096
  | .regular size => size
  | .symlink target => target.length
  | .device => 0

/-- A file tree.  The entries of one directory stand in the order of their
names, the order in which `ioutil.ReadDir` returns them. -/
abbrev FileTree := List (Str × Node)

/-- The last element of a path. -/
def pathBase (p : Str) : Str := (p.reverse.takeWhile (· ≠ '/')).reverse

/-- The directory of an absolute, cleaned path. -/
def pathParent (p : Str) : Str :=
  let d := ((p.reverse.dropWhile (· ≠ '/')).drop 1).reverse
  if d = [] then ['/'] else d

/-- The `FileInfo` of a node found under the name `p`. -/
def Node.info (node : Node) (p : Str) : FileInfo :=
  { Name := pathBase p, Size := node.size, Mode := node.mode }

/-- Go's `os.Lstat`: the node at the path itself. -/
def FileTree.lstat (tree : FileTree) (p : Str) : Except Str FileInfo :=
  match tree.lookup p with
  | none => .error "no such file or directory".toList
  | some node => .ok (node.info p)

/-- The path and node that a path leads to when symbolic links are followed,
at most `fuel - 1` of them. -/
def FileTree.resolve (tree : FileTree) : Nat → Str → Except Str (Str × Node)
  | 0, _ => .error "too many levels of symbolic links".toList
  | fuel + 1, p =>
    match tree.lookup p with
    | none => .error "no such file or directory".toList
    | some (.symlink target) => FileTree.resolve tree fuel target
    | some node => .ok (p, node)

/-- The number of symbolic links that the system follows, plus one. -/
def maxSymlinks : Nat := 41

/-- Go's `os.Stat`: the `FileInfo` describes the target of a symbolic link,
under the name that was asked for. -/
def FileTree.stat (tree : FileTree) (p : Str) : Except Str FileInfo :=
  match tree.resolve maxSymlinks p with
  | .error err => .error err
  | .ok (_, node) => .ok (node.info p)

/-- Go's `ioutil.ReadDir`: the directory is opened (symbolic links followed)
and the `FileInfo` of each child is that of `os.Lstat`. -/
def FileTree.readDir (tree : FileTree) (p : Str) : Except Str (List FileInfo) :=
  match tree.resolve maxSymlinks p with
  | .error err => .error err
  | .ok (d, .directory) =>
    .ok (tree.filterMap fun (q, node) =>
      if pathParent q = d ∧ q ≠ d then some (node.info q) else none)
  | .ok _ => .error "not a directory".toList

/-- A stand-in for `humanize.Bytes`, which it equals on sizes below 1000. -/
def bytesLabel (n : Nat) : Str := (Nat.repr n).toList ++ " B".toList

/-- The `Sys` of a file tree and a working directory. -/
def FileTree.toSys (tree : FileTree) (cwd : Str) : Sys :=
  { getwd := .ok cwd
    stat := tree.stat
    readDir := tree.readDir
    humanizeBytes := bytesLabel
    executeTemplateErr := fun _ _ => none }

/-- A served root `/srv` with a directory whose name ends in two dots, a
subdirectory, a regular file and a symbolic link to it. -/
def exampleTree : FileTree :=
  [ ("/srv".toList, .directory),
    ("/srv/a..".toList, .directory),
    ("/srv/a../f".toList, .regular 3),
    ("/srv/docs".toList, .directory),
    ("/srv/docs/x.txt".toList, .regular 5),
    ("/srv/link".toList, .symlink "/srv/readme.txt".toList),
    ("/srv/readme.txt".toList, .regular 10) ]

/-- The program's world when it serves `exampleTree` from `/srv`. -/
def exampleSys : Sys := exampleTree.toSys "/srv".toList

/-- The entry of the directory `docs` of `exampleTree`. -/
def docsEntry : FileEntry :=
  { Name := "docs".toList
    AbsolutePath := "/srv/docs".toList
    Typ := ENTRY_TYPE_DIR
    Size := "4.1 kB".toList }

/-! ## Vocabulary of the statements -/

/-- The effect writes to the HTTP response. -/
def Effect.isResponse : Effect → Bool
  | .httpError _ _ => true
  | .executeTemplate _ _ _ => true
  | .httpServeFile _ => true
  | _ => false

/-- The effects of a trace that write to the HTTP response. -/
def responses (trace : List Effect) : List Effect := trace.filter Effect.isResponse

/-- Some effect of the trace is a call of `http.Error` with status 403. -/
def writes403 (trace : List Effect) : Bool :=
  trace.any fun e =>
    match e with
    | .httpError _ code => code == 403
    | _ => false

/-- The path elements of a request path: the pieces between `/`. -/
def pathElements : Str → List Str
  | [] => [[]]
  | c :: s =>
    if c = '/' then [] :: pathElements s
    else
      match pathElements s with
      | [] => [[c]]
      | e :: es => (c :: e) :: es

/-! ## Lemmas on strings -/

theorem stringsHasPrefix_iff (s p : Str) :
    stringsHasPrefix s p = true ↔ ∃ post, s = p ++ post := by
  induction p generalizing s with
  | nil => simp [stringsHasPrefix]
  | cons d p ih =>
    cases s with
    | nil => simp [stringsHasPrefix]
    | cons c s =>
      simp only [stringsHasPrefix, Bool.and_eq_true, beq_iff_eq, ih, List.cons_append,
        List.cons.injEq]
      constructor
      · rintro ⟨rfl, post, rfl⟩
        exact ⟨post, rfl, rfl⟩
      · rintro ⟨post, rfl, rfl⟩
        exact ⟨rfl, post, rfl⟩

theorem stringsContains_iff (s substr : Str) :
    stringsContains s substr = true ↔ ∃ pre post, s = pre ++ substr ++ post := by
  induction s with
  | nil =>
    simp only [stringsContains, stringsHasPrefix_iff]
    constructor
    · rintro ⟨post, h⟩
      exact ⟨[], post, by simpa using h⟩
    · rintro ⟨pre, post, h⟩
      have h1 : pre ++ substr ++ post = [] := h.symm
      simp only [List.append_eq_nil] at h1
      obtain ⟨⟨_, rfl⟩, rfl⟩ := h1
      exact ⟨[], rfl⟩
  | cons c s ih =>
    simp only [stringsContains, Bool.or_eq_true, stringsHasPrefix_iff, ih]
    constructor
    · rintro (⟨post, h⟩ | ⟨pre, post, h⟩)
      · exact ⟨[], post, by simpa using h⟩
      · exact ⟨c :: pre, post, by simp [h]⟩
    · rintro ⟨pre, post, h⟩
      cases pre with
      | nil => exact Or.inl ⟨post, by simpa using h⟩
      | cons d pre =>
        simp only [List.cons_append, List.cons.injEq] at h
        exact Or.inr ⟨pre, post, h.2⟩

/-! ## Lemmas on `filepath.Clean` -/

theorem length_dropWhile_le (p : Char → Bool) (l : Str) : (l.dropWhile p).length ≤ l.length := by
  induction l with
  | nil => simp
  | cons a l ih =>
    rw [List.dropWhile_cons]
    split
    · exact Nat.le_succ_of_le ih
    · exact Nat.le_refl _

/-- The fuel `rest.length` is enough for the loop of `filepath.Clean`: more
fuel gives the same result. -/
theorem cleanLoop_fuel (rooted : Bool) (fuel : Nat) :
    ∀ (rest out : Str) (dotdot : Nat), rest.length ≤ fuel →
      cleanLoop rooted fuel rest out dotdot = cleanLoop rooted rest.length rest out dotdot := by
  induction fuel using Nat.strong_induction_on with
  | _ fuel ih =>
    intro rest out dotdot hle
    cases rest with
    | nil => cases fuel <;> simp [cleanLoop]
    | cons c rest =>
      cases fuel with
      | zero => simp at hle
      | succ fuel =>
        have hlen : rest.length ≤ fuel := by simpa using hle
        have key : ∀ (r o : Str) (d : Nat), r.length ≤ rest.length →
            cleanLoop rooted fuel r o d = cleanLoop rooted rest.length r o d := by
          intro r o d hr
          rw [ih fuel (Nat.lt_succ_self _) r o d (le_trans hr hlen)]
          by_cases heq : rest.length = fuel
          · subst heq
            rw [ih rest.length (Nat.lt_succ_self _) r o d hr]
          · rw [ih rest.length (by omega) r o d hr]
        have hdw : ((c :: rest).dropWhile (· ≠ '/')).length ≤ rest.length ∨ c = '/' := by
          by_cases hc : c = '/'
          · exact Or.inr hc
          · left
            rw [List.dropWhile_cons_of_pos (by simpa using hc)]
            exact length_dropWhile_le _ _
        simp only [List.length_cons, cleanLoop]
        split
        · exact key _ _ _ (Nat.le_refl _)
        · rename_i hc
          rcases hdw with hdw | hdw
          · split
            · exact key _ _ _ (Nat.le_refl _)
            · split
              · split
                · exact key _ _ _ (by simp)
                · split <;> exact key _ _ _ (by simp)
              · exact key _ _ _ hdw
          · exact absurd hdw hc

/-! ## Lemmas on the file mode -/

theorem land_two_pow_ne_zero (m k : Nat) : m &&& 2 ^ k ≠ 0 ↔ m.testBit k = true := by
  rw [Nat.and_two_pow]
  cases m.testBit k <;> simp

theorem testBit_ModeType (i : Nat) : ModeType.testBit i = decide (i ∈ typeBits) := by
  simp only [ModeType, ModeDir, ModeSymlink, ModeNamedPipe, ModeSocket, ModeDevice,
    ModeCharDevice, ModeIrregular, Nat.testBit_or, Nat.testBit_two_pow, typeBits,
    List.mem_cons, List.mem_singleton, List.not_mem_nil, or_false]
  by_cases h31 : i = 31 <;> by_cases h27 : i = 27 <;> by_cases h26 : i = 26 <;>
    by_cases h25 : i = 25 <;> by_cases h24 : i = 24 <;> by_cases h21 : i = 21 <;>
    by_cases h19 : i = 19 <;> simp [*, eq_comm]

theorem land_ModeType_eq_zero (m : Nat) :
    m &&& ModeType = 0 ↔ typeBits.all (fun i => !m.testBit i) = true := by
  rw [List.all_eq_true]
  constructor
  · intro h i hi
    have h1 : (m &&& ModeType).testBit i = false := by rw [h]; exact Nat.zero_testBit i
    rw [Nat.testBit_and, testBit_ModeType] at h1
    simpa [hi] using h1
  · intro h
    apply Nat.eq_of_testBit_eq
    intro i
    rw [Nat.testBit_and, testBit_ModeType, Nat.zero_testBit]
    by_cases hi : i ∈ typeBits
    · have := h i hi
      simp at this
      simp [this]
    · simp [hi]

/-! ## Lemmas on the directory lister -/

theorem findAbsolutePath_noResponse (sys : Sys) (path : Str) :
    ∀ e ∈ (findAbsolutePath sys path).1, e.isResponse = false := by
  unfold findAbsolutePath
  split <;> simp [Effect.isResponse]

theorem findFileEntriesStep_snd (sys : Sys) (acc : List Effect × List FileEntry)
    (fi : FileInfo) :
    (findFileEntriesStep sys acc fi).2 =
      acc.2 ++ (if getFileEntryType fi = ENTRY_TYPE_UNKNOWN then []
        else [buildFileEntry sys fi (findAbsolutePath sys fi.Name).2]) := by
  unfold findFileEntriesStep
  simp only [buildFileEntry]
  split <;> simp

theorem findFileEntriesStep_fst (sys : Sys) (acc : List Effect × List FileEntry)
    (fi : FileInfo) :
    (findFileEntriesStep sys acc fi).1 = acc.1 ++ (findAbsolutePath sys fi.Name).1 := by
  unfold findFileEntriesStep
  simp only [buildFileEntry]
  split <;> simp

theorem foldl_findFileEntriesStep_snd (sys : Sys) (infos : List FileInfo)
    (acc : List Effect × List FileEntry) :
    (infos.foldl (findFileEntriesStep sys) acc).2 =
      acc.2 ++ (infos.filter fun fi => getFileEntryType fi ≠ ENTRY_TYPE_UNKNOWN).map
        fun fi => buildFileEntry sys fi (findAbsolutePath sys fi.Name).2 := by
  induction infos generalizing acc with
  | nil => simp
  | cons fi infos ih =>
    rw [List.foldl_cons, ih, findFileEntriesStep_snd]
    by_cases h : getFileEntryType fi = ENTRY_TYPE_UNKNOWN <;> simp [h, List.filter_cons]

theorem foldl_findFileEntriesStep_fst (sys : Sys) (infos : List FileInfo)
    (acc : List Effect × List FileEntry) :
    responses (infos.foldl (findFileEntriesStep sys) acc).1 = responses acc.1 := by
  induction infos generalizing acc with
  | nil => simp
  | cons fi infos ih =>
    rw [List.foldl_cons, ih, findFileEntriesStep_fst]
    unfold responses
    rw [List.filter_append]
    have h : (findAbsolutePath sys fi.Name).1.filter Effect.isResponse = [] := by
      rw [List.filter_eq_nil_iff]
      intro e he
      simp [findAbsolutePath_noResponse sys _ e he]
    rw [h, List.append_nil]

theorem findFileEntriesForDir_responses (sys : Sys) (path : Str) :
    responses (findFileEntriesForDir sys path).1 = [] := by
  unfold findFileEntriesForDir
  rw [foldl_findFileEntriesStep_fst]
  simp only [responses]
  split <;> simp [Effect.isResponse]

theorem findFileEntriesForDir_entries (sys : Sys) (path : Str) :
    (findFileEntriesForDir sys path).2 =
      ((readDirInfos sys path).filter fun fi => getFileEntryType fi ≠ ENTRY_TYPE_UNKNOWN).map
        fun fi => buildFileEntry sys fi (findAbsolutePath sys fi.Name).2 := by
  unfold findFileEntriesForDir
  rw [foldl_findFileEntriesStep_snd]
  simp

/-- The `AbsolutePath` of every listed entry is its name resolved by
`findAbsolutePath`, whatever directory is listed. -/
theorem findFileEntriesForDir_absolutePath (sys : Sys) (dir : Str) :
    ∀ e ∈ (findFileEntriesForDir sys dir).2,
      e.AbsolutePath = (findAbsolutePath sys e.Name).2 := by
  intro e he
  rw [findFileEntriesForDir_entries] at he
  simp only [List.mem_map, List.mem_filter] at he
  obtain ⟨fi, _, rfl⟩ := he
  rfl

/-! ## Lemmas on the request handler -/

theorem responses_append (a b : List Effect) : responses (a ++ b) = responses a ++ responses b := by
  simp [responses]

theorem writes403_eq_responses (trace : List Effect) :
    writes403 trace = writes403 (responses trace) := by
  induction trace with
  | nil => rfl
  | cons e t ih =>
    cases e <;> simp_all [writes403, responses, List.filter_cons, Effect.isResponse]

theorem findAbsolutePath_responses (sys : Sys) (path : Str) :
    responses (findAbsolutePath sys path).1 = [] := by
  unfold responses
  rw [List.filter_eq_nil_iff]
  intro e he
  simp [findAbsolutePath_noResponse sys _ e he]

theorem getFileInfo_eq (sys : Sys) (path : Str) :
    getFileInfo sys path =
      ((findAbsolutePath sys path).1 ++ [.osStat (findAbsolutePath sys path).2],
        match sys.stat (findAbsolutePath sys path).2 with
        | .error err =>
          .error ("Could not stat \"".toList ++ (findAbsolutePath sys path).2 ++
            "\": ".toList ++ err ++ "\n".toList)
        | .ok fileInfo => .ok (buildFileEntry sys fileInfo (findAbsolutePath sys path).2)) := by
  unfold getFileInfo
  cases h : sys.stat (findAbsolutePath sys path).2 <;> simp [h]

theorem getFileInfo_responses (sys : Sys) (path : Str) :
    responses (getFileInfo sys path).1 = [] := by
  rw [getFileInfo_eq, responses_append, findAbsolutePath_responses]
  simp [responses, Effect.isResponse]

theorem showIndex_responses (sys : Sys) (path : Str) (fileEntry : FileEntry) :
    responses (showIndex sys path fileEntry) =
      [.executeTemplate "index.html".toList
        (if path = [] then "/".toList else "/".toList ++ path ++ "/".toList)
        (findFileEntriesForDir sys fileEntry.AbsolutePath).2] := by
  unfold showIndex
  simp only [responses_append, findFileEntriesForDir_responses]
  cases sys.executeTemplateErr
      (if path = [] then "/".toList else "/".toList ++ path ++ "/".toList)
      (findFileEntriesForDir sys fileEntry.AbsolutePath).2 <;>
    simp [responses, Effect.isResponse]

theorem serveFile_responses (absolutePath : Str) :
    responses (serveFile absolutePath) = serveFile absolutePath := by
  unfold serveFile
  split <;> simp [responses, Effect.isResponse]

theorem handleRequest_responses (sys : Sys) (c : Char) (path : Str)
    (hnot : shouldIgnoreRequest path = false) :
    ∃ trace, handleRequest sys (c :: path) = some trace ∧
      responses trace =
        match sys.stat (findAbsolutePath sys path).2 with
        | .error _ => [.httpError "getFileInfo failed for requested path".toList 403]
        | .ok fi =>
          if getFileEntryType fi = ENTRY_TYPE_DIR then
            [.executeTemplate "index.html".toList
              (if path = [] then "/".toList else "/".toList ++ path ++ "/".toList)
              (findFileEntriesForDir sys (findAbsolutePath sys path).2).2]
          else if getFileEntryType fi = ENTRY_TYPE_REGULAR then
            serveFile (findAbsolutePath sys path).2
          else
            [.httpError
              ("Not a directory or regular file, so not accepting requested path \"".toList ++
                path ++ "\"\n".toList) 403] := by
  have hr := getFileInfo_responses sys path
  rw [getFileInfo_eq] at hr
  simp only [handleRequest, hnot, getFileInfo_eq]
  cases hs : sys.stat (findAbsolutePath sys path).2 with
  | error err =>
    refine ⟨_, rfl, ?_⟩
    simp only [responses_append, hr]
    simp [responses, Effect.isResponse]
  | ok fi =>
    simp only [buildFileEntry]
    by_cases hd : getFileEntryType fi = ENTRY_TYPE_DIR
    · simp only [hd, if_true]
      refine ⟨_, rfl, ?_⟩
      simp only [responses_append, hr, showIndex_responses]
      simp [responses, Effect.isResponse]
    · by_cases hg : getFileEntryType fi = ENTRY_TYPE_REGULAR
      · simp only [hd, hg, if_true, if_false]
        refine ⟨_, rfl, ?_⟩
        simp only [responses_append, hr, serveFile_responses]
        have hne : ¬ ENTRY_TYPE_REGULAR = ENTRY_TYPE_DIR := by decide
        simp [responses, Effect.isResponse, hne]
      · simp only [hd, hg, if_false]
        refine ⟨_, rfl, ?_⟩
        simp only [responses_append, hr]
        simp [responses, Effect.isResponse]

theorem getFileEntryType_mem (info : FileInfo) :
    getFileEntryType info ∈
      [ENTRY_TYPE_DIR, ENTRY_TYPE_REGULAR, ENTRY_TYPE_SYMLINK, ENTRY_TYPE_UNKNOWN] := by
  unfold getFileEntryType
  split
  · simp
  · split
    · simp
    · split <;> simp

theorem shouldIgnoreLoop_iff (path : Str) (ignored : List Str) :
    shouldIgnoreLoop path ignored = true ↔ path ∈ ignored := by
  induction ignored with
  | nil => simp [shouldIgnoreLoop]
  | cons p rest ih =>
    unfold shouldIgnoreLoop
    by_cases h : path = p
    · simp [h]
    · simp [h, ih]

theorem resolve_not_symlink (tree : FileTree) (fuel : Nat) (p q : Str) (node : Node)
    (h : tree.resolve fuel p = .ok (q, node)) : ∀ target, node ≠ .symlink target := by
  induction fuel generalizing p with
  | zero => simp [FileTree.resolve] at h
  | succ n ih =>
    unfold FileTree.resolve at h
    split at h
    · simp at h
    · exact ih _ h
    · rename_i nd hns hlook
      simp only [Except.ok.injEq, Prod.mk.injEq] at h
      obtain ⟨_, rfl⟩ := h
      intro target ht
      exact hns target (by rw [ht])

/-- In a file tree, `os.Stat` follows symbolic links, so its result is never
classified Symlink. -/
theorem stat_not_symlink (tree : FileTree) (p : Str) (fi : FileInfo)
    (h : tree.stat p = .ok fi) : getFileEntryType fi ≠ ENTRY_TYPE_SYMLINK := by
  unfold FileTree.stat at h
  split at h
  · simp at h
  · rename_i q node hres
    simp only [Except.ok.injEq] at h
    subst h
    have hns := resolve_not_symlink tree _ p q node hres
    cases node with
    | directory =>
      show getFileEntryType ⟨[], 0, Node.mode .directory⟩ ≠ ENTRY_TYPE_SYMLINK
      decide
    | regular size =>
      show getFileEntryType ⟨[], 0, Node.mode (.regular 0)⟩ ≠ ENTRY_TYPE_SYMLINK
      decide
    | symlink target => exact absurd rfl (hns target)
    | device =>
      show getFileEntryType ⟨[], 0, Node.mode .device⟩ ≠ ENTRY_TYPE_SYMLINK
      decide

theorem foldl_findFileEntriesStep_mem (sys : Sys) (infos : List FileInfo)
    (acc : List Effect × List FileEntry) (e : Effect) (he : e ∈ acc.1) :
    e ∈ (infos.foldl (findFileEntriesStep sys) acc).1 := by
  induction infos generalizing acc with
  | nil => simpa using he
  | cons fi infos ih =>
    rw [List.foldl_cons]
    apply ih
    rw [findFileEntriesStep_fst]
    exact List.mem_append_left _ he

theorem readDir_mem_findFileEntriesForDir (sys : Sys) (path : Str) :
    Effect.readDir path ∈ (findFileEntriesForDir sys path).1 := by
  unfold findFileEntriesForDir
  apply foldl_findFileEntriesStep_mem
  split <;> simp

theorem readDir_mem_showIndex (sys : Sys) (path : Str) (fileEntry : FileEntry) :
    Effect.readDir fileEntry.AbsolutePath ∈ showIndex sys path fileEntry := by
  unfold showIndex
  simp only [List.append_assoc, List.mem_append]
  exact Or.inl (readDir_mem_findFileEntriesForDir sys fileEntry.AbsolutePath)

/-- The effects of `handleRequest` when the stat result is a Directory. -/
theorem handleRequest_dir_trace (sys : Sys) (c : Char) (path : Str) (fi : FileInfo)
    (hnot : shouldIgnoreRequest path = false)
    (hs : sys.stat (findAbsolutePath sys path).2 = .ok fi)
    (hd : getFileEntryType fi = ENTRY_TYPE_DIR) :
    handleRequest sys (c :: path) =
      some ([.print ("request \"".toList ++ path ++ "\"\n".toList)] ++
        ((findAbsolutePath sys path).1 ++ [.osStat (findAbsolutePath sys path).2]) ++
        showIndex sys path (buildFileEntry sys fi (findAbsolutePath sys path).2)) := by
  simp only [handleRequest, hnot, getFileInfo_eq, hs]
  simp [buildFileEntry, hd]

/-- A symbolic link is resolved through its target, with one link fewer
left to follow. -/
theorem resolve_symlink (tree : FileTree) (p target : Str)
    (hlink : tree.lookup p = some (.symlink target)) :
    tree.resolve maxSymlinks p = tree.resolve (maxSymlinks - 1) target := by
  show tree.resolve (40 + 1) p = tree.resolve 40 target
  simp only [FileTree.resolve, hlink]

/-! ## The properties of the program -/

/-- C1: `checkPathIsClean p` is true exactly when `p` does not contain the
substring `../` at any position; in particular `safe` and `safe..txt` are
clean and `../unsafe` and `/../unsafe` are not. -/
theorem checkPathIsClean_iff_no_dotdotslash :
    (∀ p : Str, checkPathIsClean p = true ↔
        ¬ ∃ pre post : Str, p = pre ++ "../".toList ++ post) ∧
    checkPathIsClean "safe".toList = true ∧
    checkPathIsClean "safe..txt".toList = true ∧
    checkPathIsClean "../unsafe".toList = false ∧
    checkPathIsClean "/../unsafe".toList = false := by
  refine ⟨fun p => ?_, by decide, by decide, by decide, by decide⟩
  rw [← stringsContains_iff]
  simp [checkPathIsClean]

/-- C2: `getFileEntryType` is a total function of the file mode.  It returns
Directory when bit 31 (the directory bit) is set, whatever the other bits
are; otherwise RegularFile when none of the file-type bits is set; otherwise
Symlink when bit 27 (the symlink bit) is set; otherwise Unknown.  The result
is one of the four entry types, which are pairwise different. -/
theorem getFileEntryType_by_bits (info : FileInfo) :
    getFileEntryType info =
        (if info.Mode.testBit 31 then ENTRY_TYPE_DIR
         else if typeBits.all (fun i => !info.Mode.testBit i) then ENTRY_TYPE_REGULAR
         else if info.Mode.testBit 27 then ENTRY_TYPE_SYMLINK
         else ENTRY_TYPE_UNKNOWN) ∧
      getFileEntryType info ∈
        [ENTRY_TYPE_DIR, ENTRY_TYPE_REGULAR, ENTRY_TYPE_SYMLINK, ENTRY_TYPE_UNKNOWN] ∧
      [ENTRY_TYPE_DIR, ENTRY_TYPE_REGULAR, ENTRY_TYPE_SYMLINK, ENTRY_TYPE_UNKNOWN].Nodup := by
  have hdir : FileMode.IsDir info.Mode = info.Mode.testBit 31 := by
    have := land_two_pow_ne_zero info.Mode 31
    unfold FileMode.IsDir ModeDir
    cases hb : info.Mode.testBit 31 <;> simp_all
  have hreg : FileMode.IsRegular info.Mode = typeBits.all (fun i => !info.Mode.testBit i) := by
    have := land_ModeType_eq_zero info.Mode
    unfold FileMode.IsRegular
    cases hb : typeBits.all (fun i => !info.Mode.testBit i) <;> simp_all
  have hsym : (info.Mode &&& ModeSymlink ≠ 0) ↔ info.Mode.testBit 27 = true :=
    land_two_pow_ne_zero info.Mode 27
  refine ⟨?_, ?_, by decide⟩
  · unfold getFileEntryType
    rw [hdir, hreg]
    simp only [hsym]
  · unfold getFileEntryType
    split
    · simp
    · split
      · simp
      · split <;> simp

/-- C3: for a request whose path is not on the ignore list, `handleRequest`
returns, and it calls `http.Error` with status 403 exactly when the stat of
the resolved path fails, or the stat result is classified Symlink or Unknown,
or it is classified RegularFile and the absolute path fails
`checkPathIsClean`.  In every other case the stat succeeded and either the
result is a Directory, the directory at the absolute path is read and the only
write to the response is the execution of the index template with the base of
the request path and the entries found in that directory, or it is a
RegularFile and the only write to the response is the call of
`http.ServeFile` with the absolute path. -/
theorem handleRequest_403_iff (sys : Sys) (c : Char) (path : Str)
    (hnot : shouldIgnoreRequest path = false) :
    ∃ trace, handleRequest sys (c :: path) = some trace ∧
      (writes403 trace = true ↔
        ((∃ err, sys.stat (findAbsolutePath sys path).2 = .error err) ∨
          ∃ fi, sys.stat (findAbsolutePath sys path).2 = .ok fi ∧
            (getFileEntryType fi = ENTRY_TYPE_SYMLINK ∨
              getFileEntryType fi = ENTRY_TYPE_UNKNOWN ∨
              (getFileEntryType fi = ENTRY_TYPE_REGULAR ∧
                checkPathIsClean (findAbsolutePath sys path).2 = false)))) ∧
      (writes403 trace = false →
        ∃ fi, sys.stat (findAbsolutePath sys path).2 = .ok fi ∧
          ((getFileEntryType fi = ENTRY_TYPE_DIR ∧
              Effect.readDir (findAbsolutePath sys path).2 ∈ trace ∧
              responses trace =
                [.executeTemplate "index.html".toList
                  (if path = [] then "/".toList else "/".toList ++ path ++ "/".toList)
                  (findFileEntriesForDir sys (findAbsolutePath sys path).2).2]) ∨
            (getFileEntryType fi = ENTRY_TYPE_REGULAR ∧
              responses trace = [.httpServeFile (findAbsolutePath sys path).2]))) := by
  obtain ⟨trace, htrace, hresp⟩ := handleRequest_responses sys c path hnot
  have hne : ¬ ENTRY_TYPE_REGULAR = ENTRY_TYPE_DIR := by decide
  refine ⟨trace, htrace, ?_, ?_⟩
  · rw [writes403_eq_responses, hresp]
    cases hs : sys.stat (findAbsolutePath sys path).2 with
    | error err => simp [writes403]
    | ok fi =>
      have hmem := getFileEntryType_mem fi
      simp only [List.mem_cons, List.mem_singleton, List.not_mem_nil, or_false] at hmem
      have hclean : checkPathIsClean (findAbsolutePath sys path).2 = true ∨
          checkPathIsClean (findAbsolutePath sys path).2 = false := by
        cases checkPathIsClean (findAbsolutePath sys path).2 <;> simp
      rcases hmem with h | h | h | h <;> rcases hclean with hc | hc <;>
        simp [h, hc, writes403, serveFile, ENTRY_TYPE_DIR, ENTRY_TYPE_REGULAR,
          ENTRY_TYPE_SYMLINK, ENTRY_TYPE_UNKNOWN]
  · intro hno
    rw [writes403_eq_responses, hresp] at hno
    cases hs : sys.stat (findAbsolutePath sys path).2 with
    | error err => simp [hs, writes403] at hno
    | ok fi =>
      refine ⟨fi, rfl, ?_⟩
      rw [hresp, hs]
      rw [hs] at hno
      by_cases hd : getFileEntryType fi = ENTRY_TYPE_DIR
      · left
        refine ⟨hd, ?_, by simp [hd]⟩
        have htr := handleRequest_dir_trace sys c path fi hnot hs hd
        rw [htrace] at htr
        rw [Option.some.inj htr]
        exact List.mem_append_right _
          (readDir_mem_showIndex sys path (buildFileEntry sys fi (findAbsolutePath sys path).2))
      · by_cases hg : getFileEntryType fi = ENTRY_TYPE_REGULAR
        · right
          refine ⟨hg, ?_⟩
          cases hc : checkPathIsClean (findAbsolutePath sys path).2
          · simp [hg, hne, serveFile, hc, writes403] at hno
          · simp [hg, hne, serveFile, hc]
        · simp [hd, hg, writes403] at hno

/-- Witness of C3: a path that does not exist under `exampleTree`. -/
theorem handleRequest_403_iff_witness :
    shouldIgnoreRequest "nothing".toList = false ∧
      (handleRequest exampleSys "/nothing".toList).map writes403 = some true := by
  obtain ⟨trace, htrace, h403, _⟩ :=
    handleRequest_403_iff exampleSys '/' "nothing".toList (by decide)
  refine ⟨by decide, ?_⟩
  rw [show handleRequest exampleSys "/nothing".toList = some trace from htrace]
  simp [h403.mpr (Or.inl ⟨_, rfl⟩)]

/-- C4, at a directory other than the working directory: the program runs in
`/srv` and lists `/srv/docs`, whose child `x.txt` is a regular file.  The
entry for `x.txt` has the `AbsolutePath` `/srv/x.txt`, the name resolved
against the working directory, and not `/srv/docs/x.txt`, the directory
joined with the name; nothing is stored at `/srv/x.txt`. -/
theorem findFileEntriesForDir_subdir_absolutePath :
    exampleSys.getwd = .ok "/srv".toList ∧
      exampleTree.lstat "/srv/docs/x.txt".toList =
        .ok { Name := "x.txt".toList, Size := 5, Mode := 0o644 } ∧
      (findFileEntriesForDir exampleSys "/srv/docs".toList).2 =
        [{ Name := "x.txt".toList
           AbsolutePath := "/srv/x.txt".toList
           Typ := ENTRY_TYPE_REGULAR
           Size := "5 B".toList }] ∧
      filepathJoin "/srv/docs".toList "x.txt".toList = "/srv/docs/x.txt".toList ∧
      exampleTree.lookup "/srv/x.txt".toList = none := by
  refine ⟨rfl, rfl, by decide, by decide, by decide⟩

/-- C5: when the directory read returns `children`, the names of the result
of `findFileEntriesForDir` are the names of the children that are not
classified Unknown, in the order of the read; no entry of the result has type
Unknown, and the types of the entries are the classifications of those
children. -/
theorem findFileEntriesForDir_names (sys : Sys) (path : Str) (children : List FileInfo)
    (hread : sys.readDir path = .ok children) :
    ((findFileEntriesForDir sys path).2.map fun e => e.Name) =
        ((children.filter fun fi => getFileEntryType fi ≠ ENTRY_TYPE_UNKNOWN).map
          fun fi => fi.Name) ∧
      (∀ e ∈ (findFileEntriesForDir sys path).2, e.Typ ≠ ENTRY_TYPE_UNKNOWN) ∧
      ((findFileEntriesForDir sys path).2.map fun e => e.Typ) =
        ((children.filter fun fi => getFileEntryType fi ≠ ENTRY_TYPE_UNKNOWN).map
          getFileEntryType) := by
  have hinfos : readDirInfos sys path = children := by simp [readDirInfos, hread]
  rw [findFileEntriesForDir_entries, hinfos]
  refine ⟨?_, ?_, ?_⟩
  · simp [List.map_map, Function.comp_def, buildFileEntry]
  · intro e he
    simp only [List.mem_map, List.mem_filter] at he
    obtain ⟨fi, ⟨_, hk⟩, rfl⟩ := he
    simpa [buildFileEntry] using hk
  · simp [List.map_map, Function.comp_def, buildFileEntry]

/-- Witness of C5: the listing of the root of `exampleTree`. -/
theorem findFileEntriesForDir_names_witness :
    exampleSys.readDir "/srv".toList =
        .ok [(Node.directory).info "/srv/a..".toList, (Node.directory).info "/srv/docs".toList,
          (Node.symlink "/srv/readme.txt".toList).info "/srv/link".toList,
          (Node.regular 10).info "/srv/readme.txt".toList] ∧
      ((findFileEntriesForDir exampleSys "/srv".toList).2.map fun e => e.Name) =
        ["a..".toList, "docs".toList, "link".toList, "readme.txt".toList] := by
  have hread : exampleSys.readDir "/srv".toList =
        .ok [(Node.directory).info "/srv/a..".toList, (Node.directory).info "/srv/docs".toList,
          (Node.symlink "/srv/readme.txt".toList).info "/srv/link".toList,
          (Node.regular 10).info "/srv/readme.txt".toList] := by rfl
  refine ⟨hread, ?_⟩
  rw [(findFileEntriesForDir_names exampleSys "/srv".toList _ hread).1]
  decide

/-- C6 fails as stated: for the base `/` and the directory entry `docs` the
row holds the link `<a href="/docs">docs/</a>`, and `href="/docs/"` occurs
nowhere in it. -/
theorem templateRow_dir_href_has_no_slash :
    docsEntry.Typ = ENTRY_TYPE_DIR ∧
      templateRow plainEscapers "/".toList docsEntry =
        ("\n\t<tr>\n\t\t\t\t\t\t\n\t\t\t<td></td>\n\t\t\t<td>".toList ++
          "<a href=\"/docs\">docs/</a>".toList ++ "</td>\n\t\t\n\t</tr>\n".toList) ∧
      stringsContains (templateRow plainEscapers "/".toList docsEntry)
        "href=\"/docs/\"".toList = false := by
  refine ⟨rfl, by decide, by decide⟩

/-- C6, amended: for every base and every entry of type Directory, the row of
the index template has an empty size cell and a hyperlink whose `href` is the
escaped base followed by the escaped name, with no trailing slash; the slash
follows the name in the label of the link.  The row is part of the rendered
index of every list that holds the entry. -/
theorem templateRow_dir (esc : Escapers) (base : Str) (entry : FileEntry)
    (hdir : entry.Typ = ENTRY_TYPE_DIR) :
    templateRow esc base entry =
        "\n\t<tr>\n\t\t\t\t\t\t\n\t\t\t<td></td>\n\t\t\t<td><a href=\"".toList ++
          esc.hrefBase base ++ esc.hrefName entry.Name ++ "\">".toList ++
          esc.text entry.Name ++ "/</a></td>\n\t\t\n\t</tr>\n".toList ∧
      ∀ entries : List FileEntry, entry ∈ entries →
        ∃ pre post, templateIndexHTML esc base entries = pre ++ templateRow esc base entry ++ post := by
  constructor
  · have h0 : entry.Typ = 0 := hdir
    simp [templateRow, h0]
  · intro entries hmem
    obtain ⟨l1, l2, rfl⟩ := List.append_of_mem hmem
    refine ⟨"\n<html>\n<head>\n</head>\n<body>\n\nindex of ".toList ++ esc.text base ++
        "\n\n<table>\n".toList ++ (l1.map (templateRow esc base)).flatten,
      ((l2.map (templateRow esc base)).flatten) ++
        "\n</table>\n\n</body>\n</html>\n".toList, ?_⟩
    simp [templateIndexHTML, List.append_assoc]

/-- Witness of C6, amended: the row of the directory `docs` under the base
`/`. -/
theorem templateRow_dir_witness :
    docsEntry.Typ = ENTRY_TYPE_DIR ∧
      templateRow plainEscapers "/".toList docsEntry =
        "\n\t<tr>\n\t\t\t\t\t\t\n\t\t\t<td></td>\n\t\t\t<td><a href=\"".toList ++
          "/".toList ++ "docs".toList ++ "\">".toList ++
          "docs".toList ++ "/</a></td>\n\t\t\n\t</tr>\n".toList :=
  ⟨rfl, (templateRow_dir plainEscapers "/".toList docsEntry rfl).1⟩

/-- C7: for a request whose path (the URL path without its first byte) is an
entry of the ignore list, `handleRequest` returns with no effect at all:
nothing is written to the response, nothing is printed, and there is no path
resolution, stat, directory read or file serving.  `shouldIgnoreRequest q` is
true exactly when `q` is an entry of the ignore list, whose only entry is
`favicon.ico`. -/
theorem handleRequest_ignored (sys : Sys) (c : Char) (p : Str)
    (hin : p ∈ IGNORED_REQUEST_PATHS) :
    handleRequest sys (c :: p) = some [] ∧
      (∀ q : Str, shouldIgnoreRequest q = true ↔ q ∈ IGNORED_REQUEST_PATHS) ∧
      IGNORED_REQUEST_PATHS = ["favicon.ico".toList] := by
  have hiff : ∀ q : Str, shouldIgnoreRequest q = true ↔ q ∈ IGNORED_REQUEST_PATHS :=
    fun q => shouldIgnoreLoop_iff q IGNORED_REQUEST_PATHS
  refine ⟨?_, hiff, rfl⟩
  simp [handleRequest, (hiff p).mpr hin]

/-- Witness of C7: the request for `/favicon.ico`. -/
theorem handleRequest_ignored_witness :
    "favicon.ico".toList ∈ IGNORED_REQUEST_PATHS ∧
      handleRequest exampleSys "/favicon.ico".toList = some [] :=
  ⟨by decide, (handleRequest_ignored exampleSys '/' "favicon.ico".toList (by decide)).1⟩

/-- C8 fails as stated: `link` is a symbolic link in the served root
(`os.Lstat` classifies it Symlink) to the regular file `readme.txt`.  The
request for `/link` is not ignored, and `handleRequest` hands the path to
`http.ServeFile`; it writes no 403. -/
theorem handleRequest_symlink_is_served :
    exampleTree.lstat "/srv/link".toList =
        .ok { Name := "link".toList, Size := 15, Mode := ModeSymlink ||| 0o777 } ∧
      getFileEntryType { Name := "link".toList, Size := 15, Mode := ModeSymlink ||| 0o777 } =
        ENTRY_TYPE_SYMLINK ∧
      shouldIgnoreRequest "link".toList = false ∧
      handleRequest exampleSys "/link".toList =
        some [.print "request \"link\"\n".toList, .filepathAbs "link".toList,
          .osStat "/srv/link".toList, .httpServeFile "/srv/link".toList] := by
  refine ⟨rfl, by decide, by decide, by decide⟩

/-- C8, amended: `os.Stat` follows a symbolic link, so a request path that
is not ignored and resolves to a symbolic link is answered by what the link
leads to.  A link to a directory gets the index of the request path; a link to
a regular file is passed to `serveFile` under the path of the link; a link
that cannot be followed to a file (dangling, or too many links) gets the 403
"getFileInfo failed for requested path", which does not name the path; only a
link to something that is neither a directory nor a regular file gets the 403
whose body names the request path. -/
theorem handleRequest_symlink_follows_target (tree : FileTree) (cwd : Str) (c : Char)
    (path target : Str)
    (hnot : shouldIgnoreRequest path = false)
    (hlink : tree.lookup (findAbsolutePath (tree.toSys cwd) path).2 = some (.symlink target)) :
    ∃ trace, handleRequest (tree.toSys cwd) (c :: path) = some trace ∧
      responses trace =
        match tree.resolve (maxSymlinks - 1) target with
        | .error _ => [.httpError "getFileInfo failed for requested path".toList 403]
        | .ok (_, .directory) =>
          [.executeTemplate "index.html".toList
            (if path = [] then "/".toList else "/".toList ++ path ++ "/".toList)
            (findFileEntriesForDir (tree.toSys cwd)
              (findAbsolutePath (tree.toSys cwd) path).2).2]
        | .ok (_, .regular _) => serveFile (findAbsolutePath (tree.toSys cwd) path).2
        | .ok _ =>
          [.httpError
            ("Not a directory or regular file, so not accepting requested path \"".toList ++
              path ++ "\"\n".toList) 403] := by
  obtain ⟨trace, htrace, hresp⟩ := handleRequest_responses (tree.toSys cwd) c path hnot
  refine ⟨trace, htrace, ?_⟩
  rw [hresp]
  have hstat : (tree.toSys cwd).stat (findAbsolutePath (tree.toSys cwd) path).2 =
      match tree.resolve (maxSymlinks - 1) target with
      | .error err => .error err
      | .ok (_, node) => .ok (node.info (findAbsolutePath (tree.toSys cwd) path).2) := by
    show tree.stat (findAbsolutePath (tree.toSys cwd) path).2 = _
    unfold FileTree.stat
    rw [resolve_symlink tree _ target hlink]
  rw [hstat]
  cases hres : tree.resolve (maxSymlinks - 1) target with
  | error err => rfl
  | ok qn =>
    obtain ⟨q, node⟩ := qn
    cases node with
    | directory =>
      have h : getFileEntryType (Node.directory.info (findAbsolutePath (tree.toSys cwd) path).2) =
          ENTRY_TYPE_DIR := by
        show getFileEntryType ⟨[], 0, Node.mode .directory⟩ = ENTRY_TYPE_DIR
        decide
      simp only [h, if_true]
    | regular size =>
      have h : getFileEntryType ((Node.regular size).info (findAbsolutePath (tree.toSys cwd) path).2) =
          ENTRY_TYPE_REGULAR := by
        show getFileEntryType ⟨[], 0, Node.mode (.regular 0)⟩ = ENTRY_TYPE_REGULAR
        decide
      have hne : ¬ ENTRY_TYPE_REGULAR = ENTRY_TYPE_DIR := by decide
      simp only [h, hne, if_true, if_false]
    | symlink t => exact absurd rfl (resolve_not_symlink tree _ target q _ hres t)
    | device =>
      have h : getFileEntryType (Node.device.info (findAbsolutePath (tree.toSys cwd) path).2) =
          ENTRY_TYPE_UNKNOWN := by
        show getFileEntryType ⟨[], 0, Node.mode .device⟩ = ENTRY_TYPE_UNKNOWN
        decide
      have hne : ¬ ENTRY_TYPE_UNKNOWN = ENTRY_TYPE_DIR := by decide
      have hne2 : ¬ ENTRY_TYPE_UNKNOWN = ENTRY_TYPE_REGULAR := by decide
      simp only [h, hne, hne2, if_false]

/-- Witness of C8, amended: the link `link` of `exampleTree`, which leads to
a regular file. -/
theorem handleRequest_symlink_follows_target_witness :
    shouldIgnoreRequest "link".toList = false ∧
      exampleTree.lookup (findAbsolutePath exampleSys "link".toList).2 =
        some (.symlink "/srv/readme.txt".toList) ∧
      (handleRequest exampleSys "/link".toList).map responses =
        some [.httpServeFile "/srv/link".toList] := by
  obtain ⟨trace, htrace, hresp⟩ :=
    handleRequest_symlink_follows_target exampleTree "/srv".toList '/' "link".toList
      "/srv/readme.txt".toList (by decide) (by decide)
  refine ⟨by decide, by decide, ?_⟩
  rw [show handleRequest exampleSys "/link".toList = some trace from htrace]
  rw [Option.map_some', hresp]
  decide

/-- C9: the only write of `showIndex` to the response is the execution of the
index template, and the base it is given is `/` when the request path is empty
and `/` + path + `/` otherwise; every base passed to the template begins and
ends with `/`. -/
theorem showIndex_base (sys : Sys) (path : Str) (fileEntry : FileEntry) :
    responses (showIndex sys path fileEntry) =
        [.executeTemplate "index.html".toList
          (if path = [] then "/".toList else "/".toList ++ path ++ "/".toList)
          (findFileEntriesForDir sys fileEntry.AbsolutePath).2] ∧
      ∀ name base entries, Effect.executeTemplate name base entries ∈ showIndex sys path fileEntry →
        base = (if path = [] then "/".toList else "/".toList ++ path ++ "/".toList) ∧
        base.head? = some '/' ∧ base.getLast? = some '/' := by
  have hresp := showIndex_responses sys path fileEntry
  refine ⟨hresp, ?_⟩
  intro name base entries hmem
  have hmem2 : Effect.executeTemplate name base entries ∈ responses (showIndex sys path fileEntry) := by
    unfold responses
    rw [List.mem_filter]
    exact ⟨hmem, rfl⟩
  rw [hresp] at hmem2
  simp only [List.mem_singleton, Effect.executeTemplate.injEq] at hmem2
  obtain ⟨_, hbase, _⟩ := hmem2
  refine ⟨hbase, ?_⟩
  rw [hbase]
  by_cases hp : path = []
  · simp [hp]
  · have hlast : ("/".toList ++ path ++ "/".toList).getLast? = some '/' := by
      rw [List.getLast?_append]
      rfl
    rw [if_neg hp]
    exact ⟨rfl, hlast⟩

/-- Witness of C9: the index of the directory `docs` of `exampleTree`. -/
theorem showIndex_base_witness :
    responses (showIndex exampleSys "docs".toList docsEntry) =
      [.executeTemplate "index.html".toList "/docs/".toList
        [{ Name := "x.txt".toList
           AbsolutePath := "/srv/x.txt".toList
           Typ := ENTRY_TYPE_REGULAR
           Size := "5 B".toList }]] :=
  (showIndex_base exampleSys "docs".toList docsEntry).1.trans (by decide)

/-- C10: there is a request path with no `..` element, naming a regular file
that exists under the served root (`a../f`, a file in a directory whose name
ends in `..`), whose absolute path contains `../`: `checkPathIsClean` is false
on it and `handleRequest` answers 403 "Requested path is not allowed" without
calling `http.ServeFile`. -/
theorem handleRequest_rejects_dotdot_suffix_dir :
    ∃ path : Str,
      "..".toList ∉ pathElements path ∧
      shouldIgnoreRequest path = false ∧
      (findAbsolutePath exampleSys path).2 = "/srv/a../f".toList ∧
      exampleTree.lstat "/srv/a../f".toList =
        .ok { Name := "f".toList, Size := 3, Mode := 0o644 } ∧
      getFileEntryType { Name := "f".toList, Size := 3, Mode := 0o644 } = ENTRY_TYPE_REGULAR ∧
      (∃ pre post : Str, (findAbsolutePath exampleSys path).2 = pre ++ "../".toList ++ post) ∧
      checkPathIsClean (findAbsolutePath exampleSys path).2 = false ∧
      handleRequest exampleSys ('/' :: path) =
        some [.print "request \"a../f\"\n".toList, .filepathAbs "a../f".toList,
          .osStat "/srv/a../f".toList,
          .httpError "Requested path is not allowed".toList 403] := by
  refine ⟨"a../f".toList, by decide, by decide, by decide, rfl, by decide,
    ⟨"/srv/a".toList, "f".toList, by decide⟩, by decide, by decide⟩

end Ittyhttpd2
